import Mathlib

/-!
Verification of the attribute-value decoding engine of `adldapsearch`.

This file shallowly embeds the decoders of `src/values.rs`,
`src/oid_prefix.rs`, `src/values/structs/security.rs`,
`src/values/structs/schema.rs` and `src/values/structs/replication.rs`.

Conventions of the embedding:
* a Rust byte slice `&[u8]` is a `List Nat`; where a property needs the
  entries to actually be bytes, the hypothesis `AllBytes l` (every entry
  `< 256`) is added;
* a Rust `&str`/`String` is a `List Char`;
* a fallible Rust function returning `Option<T>` becomes `Option T`;
* a Rust function that can *panic* on some inputs (an out-of-range slice
  index, an `unwrap` of a failed conversion) becomes `Option (Option T)`:
  the outer `none` is a panic, `some none` is the function's own `None`,
  and `some (some t)` is `Some(t)`;
* machine integers are `Nat`/`Int`; Rust's truncating `i64` division and
  remainder are `Int.tdiv`/`Int.tmod`.
-/

namespace AdLdapSearch

/-- Every entry of the list is a byte value. -/
def AllBytes (l : List Nat) : Prop := ∀ x ∈ l, x < 256

instance : DecidablePred AllBytes := fun l =>
  inferInstanceAs (Decidable (∀ x ∈ l, x < 256))

/-- Rust `u16::from_le_bytes` on the two list entries starting at `i`. -/
def leU16 (l : List Nat) (i : Nat) : Nat :=
  l.getD i 0 + 256 * l.getD (i+1) 0

/-- Rust `u32::from_le_bytes` on the four list entries starting at `i`. -/
def leU32 (l : List Nat) (i : Nat) : Nat :=
  l.getD i 0 + 256 * l.getD (i+1) 0 + 65536 * l.getD (i+2) 0
    + 16777216 * l.getD (i+3) 0

/-- Rust `u64::from_le_bytes` on the eight list entries starting at `i`. -/
def leU64 (l : List Nat) (i : Nat) : Nat :=
  leU32 l i + 4294967296 * leU32 l (i+4)

/-- Reinterpret an unsigned 64-bit value as a signed one
(`i64::from_le_bytes`). -/
def toSigned64 (n : Nat) : Int :=
  if n < 2^63 then (n : Int) else (n : Int) - 2^64

/-- Rust's panicking slice operation `&l[a..b]`: `none` models the panic
when the range is out of bounds. -/
def listSlice (l : List Nat) (a b : Nat) : Option (List Nat) :=
  if a ≤ b ∧ b ≤ l.length then some ((l.drop a).take (b - a)) else none

/-- Little-endian decimal digits of `n`; the fuel argument makes the
recursion structural (`n` itself is always enough fuel). -/
def natDigitsAux : Nat → Nat → List Nat
  | 0, _ => []
  | fuel+1, n => if n = 0 then [] else n % 10 :: natDigitsAux fuel (n / 10)

/-- Decimal digit characters of a natural number, most significant first;
the rendering used by Rust's `Display` for unsigned integers. -/
def natChars (n : Nat) : List Char :=
  if n = 0 then ['0'] else ((natDigitsAux n n).map Nat.digitChar).reverse

/-- Decimal rendering of a signed integer (Rust `Display` for `i64`). -/
def intChars (i : Int) : List Char :=
  if i < 0 then '-' :: natChars i.natAbs else natChars i.natAbs

/-- Numeric value of a list of decimal digit characters, most significant
first. -/
def digitsVal (s : List Char) : Nat :=
  s.foldl (fun a c => 10 * a + (c.toNat - 48)) 0

/-- Drop one optional leading `+` sign. -/
def stripPlus (s : List Char) : List Char :=
  match s with
  | [] => []
  | c :: r => if c = '+' then r else c :: r

/-- Rust's `str::parse::<u64>`: an optional leading `+`, then one or more
decimal digits, rejecting values that do not fit into 64 bits. -/
def parseU64 (s : List Char) : Option Nat :=
  let t := stripPlus s
  if t = [] then none
  else if t.all Char.isDigit then
    if digitsVal t < 2^64 then some (digitsVal t) else none
  else none

/-- Split one optional leading sign (`+` or `-`) off a numeral. -/
def parseSign (s : List Char) : Int × List Char :=
  match s with
  | [] => (1, [])
  | c :: r => if c = '+' then (1, r) else if c = '-' then (-1, r) else (1, c :: r)

/-- Rust's `str::parse::<i64>` / `i64::from_str_radix(_, 10)`: an optional
sign, then one or more decimal digits, rejecting values outside the `i64`
range. -/
def parseI64 (s : List Char) : Option Int :=
  let sr := parseSign s
  let t := sr.2
  if t = [] then none
  else if t.all Char.isDigit then
    let i : Int := sr.1 * digitsVal t
    if -(2^63) ≤ i ∧ i < 2^63 then some i else none
  else none

/-- Rust's `str::split('-')`: splits into the (always non-empty) list of
dash-separated fragments. -/
def splitOnDash : List Char → List (List Char)
  | [] => [[]]
  | c :: rest =>
    if c = '-' then [] :: splitOnDash rest
    else
      match splitOnDash rest with
      | [] => [[c]]
      | t :: ts => (c :: t) :: ts

/-! ## SID codec (`src/values/structs/security.rs`, `Sid`) -/

structure Sid where
  version : Nat
  authority : Nat
  subauthorities : List Nat
  deriving Repr, DecidableEq

namespace Sid

/-- Rust `Sid::subauthority_count_from_slice`. -/
def subauthorityCountFromSlice (bytes : List Nat) : Option Nat :=
  if bytes.length < 8 then none
  else if bytes.getD 0 0 ≠ 1 then none
  else
    let subauthorityCount := bytes.getD 1 0
    if bytes.length < 8 + 4 * subauthorityCount then none
    else some subauthorityCount

/-- Rust `Sid::get_length`. -/
def getLength (bytes : List Nat) : Option Nat :=
  match subauthorityCountFromSlice bytes with
  | none => none
  | some subauthorityCount =>
    let totalSize := 8 + 4 * subauthorityCount
    if bytes.length < totalSize then none else some totalSize

/-- Rust `Sid::try_from_bytes`. -/
def tryFromBytes (bytes : List Nat) : Option Sid :=
  match subauthorityCountFromSlice bytes with
  | none => none
  | some subauthorityCount =>
    let totalSize := 8 + 4 * subauthorityCount
    if bytes.length ≠ totalSize then none
    else
      -- big endian
      let authority :=
        bytes.getD 2 0 * 2^40 + bytes.getD 3 0 * 2^32 + bytes.getD 4 0 * 2^24
          + bytes.getD 5 0 * 2^16 + bytes.getD 6 0 * 2^8 + bytes.getD 7 0
      -- little endian
      let subauthorities :=
        (List.range subauthorityCount).map (fun i => leU32 bytes (8 + 4 * i))
      some { version := 1, authority, subauthorities }

/-- Rust `impl fmt::Display for Sid`: `S-{version}-{authority}` followed by
`-{subauthority}` for each subauthority. -/
def toChars (sid : Sid) : List Char :=
  ['S', '-'] ++ natChars sid.version ++ ['-'] ++ natChars sid.authority
    ++ sid.subauthorities.flatMap (fun s => '-' :: natChars s)

/-- The subauthority-parsing tail of `impl FromStr for Sid`. -/
def parseSubs : List (List Char) → Option (List Nat)
  | [] => some []
  | t :: ts =>
    match parseU64 t with
    | none => none
    | some a =>
      if a > 0xFFFFFFFF then none
      else (parseSubs ts).map (a :: ·)

/-- Rust `impl FromStr for Sid`. -/
def fromChars (s : List Char) : Option Sid :=
  if s.take 2 = ['S', '-'] then
    match splitOnDash (s.drop 2) with
    | [] => none
    | verTok :: rest =>
      if verTok = ['1'] then
        match rest with
        | [] => none  -- no top authority specified
        | authTok :: subToks =>
          match parseU64 authTok with
          | none => none
          | some authority =>
            if authority > 0x0000FFFFFFFFFFFF then none
            else
              match parseSubs subToks with
              | none => none
              | some subauthorities =>
                some { version := 1, authority, subauthorities }
      else none
  else none

end Sid

/-! ## OID prefix decoder (`src/oid_prefix.rs`) -/

/-- Rust `OidPrefix`: fixed arcs plus the half-open numeric range of the final,
undetermined arc.  Arc values are arbitrary-precision (`BigUint` ↦ `Nat`). -/
structure OidPrefix where
  fixed_arcs : List Nat
  range_start : Nat
  range_end : Nat
  deriving Repr, DecidableEq

namespace OidPrefix

/-- Rust `OidPrefix::extract_ber_integer`: base-128 big-endian value of the arc
bytes with the continuation bits stripped. -/
def extractBerInteger (bytes : List Nat) : Nat :=
  bytes.foldl (fun acc b => acc * 128 + b % 128) 0

/-- Append one decoded arc value to the accumulated fixed arcs, applying
the special encoding of the first two arcs. -/
def pushArc (fixed : List Nat) (arcValue : Nat) : List Nat :=
  if fixed = [] then
    if arcValue < 40 then [0, arcValue]
    else if arcValue < 80 then [1, arcValue - 40]
    else [2, arcValue - 80]
  else fixed ++ [arcValue]

/-- The arc-consuming loop of `OidPrefix::from_ber_bytes`.
`curArc` holds the continuation bytes (bit 7 set) of the arc currently
being read; the source's `take_ber_integer_slice` splits the buffer at the
first byte whose bit 7 is clear, which is exactly when this loop closes the
current arc.  Running out of input with a non-empty `curArc` is the
unterminated-final-arc case. -/
def fromBerLoop (curArc fixed : List Nat) : List Nat → OidPrefix
  | [] =>
    if curArc = [] then
      -- the last arc was a fixed arc: default 14-bit sub-identifier range
      { fixed_arcs := fixed, range_start := 0, range_end := 16384 }
    else
      -- unterminated final arc: pad with the minimal and maximal final byte
      { fixed_arcs := fixed
        range_start := extractBerInteger (curArc ++ [0x80, 0x00])
        range_end := extractBerInteger (curArc ++ [0xFF, 0x7F]) + 1 }
  | b :: rest =>
    if b % 256 < 128 then
      -- continuation bit clear: the current arc terminates at `b`
      fromBerLoop [] (pushArc fixed (extractBerInteger (curArc ++ [b]))) rest
    else
      fromBerLoop (curArc ++ [b]) fixed rest

/-- Rust `OidPrefix::from_ber_bytes`. -/
def fromBerBytes (bytes : List Nat) : OidPrefix :=
  fromBerLoop [] [] bytes

end OidPrefix

/-! ## Schema prefix map (`src/values/structs/schema.rs`) -/

structure PrefixEntry where
  db_prefix : Nat
  oid_prefix : OidPrefix
  deriving Repr, DecidableEq

structure PrefixMap where
  prefixes : List PrefixEntry
  deriving Repr, DecidableEq

namespace PrefixMap

/-- The entry-reading loop of `PrefixMap::try_from_bytes`; returns the
decoded entries together with the final read offset `i`. -/
def entriesLoop (bytes : List Nat) : Nat → Nat → Option (List PrefixEntry × Nat)
  | 0, i => some ([], i)
  | n+1, i =>
    if i + 4 > bytes.length then none
    else
      let dbPrefix := leU16 bytes i
      let berLen := leU16 bytes (i + 2)
      let i2 := i + 4
      if i2 + berLen > bytes.length then none
      else
        let berSlice := (bytes.drop i2).take berLen
        let oidPrefix := OidPrefix.fromBerBytes berSlice
        (entriesLoop bytes n (i2 + berLen)).map
          (fun r => (⟨dbPrefix, oidPrefix⟩ :: r.1, r.2))

/-- Rust `PrefixMap::try_from_bytes`, additionally reporting the final read
offset (the number of consumed bytes). -/
def decodeWithConsumed (bytes : List Nat) : Option (List PrefixEntry × Nat) :=
  if bytes.length < 8 then none
  else
    let numEntries := leU32 bytes 0
    let numBytes := leU32 bytes 4
    if numBytes ≠ bytes.length then none
    else entriesLoop bytes numEntries 8

/-- Rust `PrefixMap::try_from_bytes`. -/
def tryFromBytes (bytes : List Nat) : Option PrefixMap :=
  (decodeWithConsumed bytes).map (fun r => ⟨r.1⟩)

end PrefixMap

/-! ## Replication up-to-date vector (`src/values/structs/replication.rs`) -/

/-- A UUID, as stored by the `uuid` crate (`Uuid::from_bytes_le` reads the
first three groups little-endian). -/
structure Uuid where
  d1 : Nat
  d2 : Nat
  d3 : Nat
  d4 : List Nat
  deriving Repr, DecidableEq

/-- Rust `Uuid::from_bytes_le` / `Uuid::from_slice_le` on 16 bytes. -/
def uuidFromBytesLE (l : List Nat) : Uuid :=
  { d1 := leU32 l 0
    d2 := leU16 l 4
    d3 := leU16 l 6
    d4 := (l.drop 8).take 8 }

/-- Rust `utc_seconds_relative_to_1601` (`src/values.rs`): a UTC timestamp,
modelled as seconds relative to the Unix epoch. -/
def utcSecondsRelativeTo1601 (seconds : Int) : Int :=
  -11644473600 + seconds

structure Repl2Cursor where
  uuid_dsa : Uuid
  usn_high_prop_update : Nat
  time_last_sync_success : Int
  deriving Repr, DecidableEq

namespace Repl2Cursor

/-- Rust `Repl2Cursor::try_from_bytes`. -/
def tryFromBytes (bytes : List Nat) : Option Repl2Cursor :=
  if bytes.length ≠ 32 then none
  else
    some { uuid_dsa := uuidFromBytesLE ((bytes.drop 0).take 16)
           usn_high_prop_update := leU64 bytes 16
           time_last_sync_success := utcSecondsRelativeTo1601 (toSigned64 (leU64 bytes 24)) }

end Repl2Cursor

structure ReplUpToDateVector2 where
  version : Nat
  reserved1 : Nat
  reserved2 : Nat
  cursors : List Repl2Cursor
  deriving Repr, DecidableEq

namespace ReplUpToDateVector2

/-- The cursor-reading loop of `ReplUpToDateVector2::try_from_bytes`;
cursor `i` occupies the 32 bytes at offset `16 + i*32`. -/
def cursorsLoop (bytes : List Nat) : Nat → Nat → Option (List Repl2Cursor)
  | 0, _ => some []
  | n+1, i =>
    let offset := 16 + i * 32
    match Repl2Cursor.tryFromBytes ((bytes.drop offset).take 32) with
    | none => none
    | some cursor => (cursorsLoop bytes n (i+1)).map (cursor :: ·)

/-- Rust `ReplUpToDateVector2::try_from_bytes`. -/
def tryFromBytes (bytes : List Nat) : Option ReplUpToDateVector2 :=
  if bytes.length < 16 then none
  else
    let version := leU32 bytes 0
    if version ≠ 2 then none
    else
      let reserved1 := leU32 bytes 4
      let numCursors := leU32 bytes 8
      let reserved2 := leU32 bytes 12
      if bytes.length ≠ 16 + numCursors * 32 then none
      else
        (cursorsLoop bytes numCursors 0).map
          (fun cursors => { version, reserved1, reserved2, cursors })

end ReplUpToDateVector2

/-! ## UTF-16 string extraction (`src/values.rs`) -/

/-- Rust `String::from_utf16`: decode UTF-16 code units, combining surrogate
pairs; `none` on an unpaired surrogate. -/
def utf16Decode : List Nat → Option (List Char)
  | [] => some []
  | w :: rest =>
    if w < 0xD800 ∨ 0xE000 ≤ w then
      (utf16Decode rest).map (Char.ofNat w :: ·)
    else if w < 0xDC00 then
      match rest with
      | [] => none
      | w2 :: rest2 =>
        if 0xDC00 ≤ w2 ∧ w2 < 0xE000 then
          (utf16Decode rest2).map
            (Char.ofNat (0x10000 + (w - 0xD800) * 0x400 + (w2 - 0xDC00)) :: ·)
        else none
    else none

/-- The chunking loop of `nul_terminated_utf16le_string`: collect
little-endian 16-bit words up to (excluding) the first NUL word.
The outer `none` models the panic of `chunk.try_into().unwrap()` when the
loop reaches a final chunk of a single byte (odd-length input with no
earlier NUL word). -/
def collectNulWords : List Nat → Option (List Nat)
  | [] => some []
  | [_] => none
  | b0 :: b1 :: rest =>
    let w := b0 + 256 * b1
    if w = 0 then some []
    else (collectNulWords rest).map (w :: ·)

/-- Rust `nul_terminated_utf16le_string` (`src/values.rs`).  Outer `none` =
panic on an odd-length slice; inner `none` = invalid UTF-16. -/
def nulTerminatedUtf16leString (bytes : List Nat) : Option (Option (List Char)) :=
  match collectNulWords bytes with
  | none => none
  | some words => some (utf16Decode words)

/-! ## Claim security attributes (`src/values/structs/security.rs`) -/

inductive ClaimValues where
  | int64s (values : List Int)
  | uint64s (values : List Nat)
  | strings (values : List (List Char))
  | sids (values : List Sid)
  | booleans (values : List Bool)
  | octetStrings (values : List (List Nat))
  deriving Repr, DecidableEq

structure ClaimSecurityAttribute1 where
  name : List Char
  reserved : Nat
  flags : Nat
  values : ClaimValues
  deriving Repr, DecidableEq

namespace ClaimSecurityAttribute1

/-- The offset-collecting loop of `ClaimSecurityAttribute1::try_from_bytes`. -/
def offsetsLoop (bytes : List Nat) : Nat → Nat → Option (List Nat)
  | 0, _ => some []
  | n+1, i =>
    let offsetOffset := 16 + 4 * i
    if offsetOffset + 4 > bytes.length then none
    else
      let offset := leU32 bytes offsetOffset
      if offset ≥ bytes.length then none
      else (offsetsLoop bytes n (i+1)).map (offset :: ·)

/-- Value type `0x0001`: an `i64` at each offset. -/
def readI64s (bytes : List Nat) : List Nat → Option (List Int)
  | [] => some []
  | off :: rest =>
    if off + 8 > bytes.length then none
    else (readI64s bytes rest).map (toSigned64 (leU64 bytes off) :: ·)

/-- Value type `0x0002`: a `u64` at each offset. -/
def readU64s (bytes : List Nat) : List Nat → Option (List Nat)
  | [] => some []
  | off :: rest =>
    if off + 8 > bytes.length then none
    else (readU64s bytes rest).map (leU64 bytes off :: ·)

/-- Value type `0x0003`: a NUL-terminated UTF-16 string at each offset
(outer `none` = panic inside `nul_terminated_utf16le_string`). -/
def readStrings (bytes : List Nat) : List Nat → Option (Option (List (List Char)))
  | [] => some (some [])
  | off :: rest =>
    if off ≥ bytes.length then some none
    else
      match nulTerminatedUtf16leString (bytes.drop off) with
      | none => none
      | some none => some none
      | some (some v) => (readStrings bytes rest).map (·.map (v :: ·))

/-- Value type `0x0005`: a SID in text form at each offset. -/
def readSids (bytes : List Nat) : List Nat → Option (Option (List Sid))
  | [] => some (some [])
  | off :: rest =>
    if off ≥ bytes.length then some none
    else
      match nulTerminatedUtf16leString (bytes.drop off) with
      | none => none
      | some none => some none
      | some (some sidChars) =>
        match Sid.fromChars sidChars with
        | none => some none
        | some sid => (readSids bytes rest).map (·.map (sid :: ·))

/-- Value type `0x0006`: a boolean encoded as a `u64` 0/1 at each offset. -/
def readBooleans (bytes : List Nat) : List Nat → Option (List Bool)
  | [] => some []
  | off :: rest =>
    if off + 8 > bytes.length then none
    else
      let numericValue := leU64 bytes off
      if numericValue = 1 then (readBooleans bytes rest).map (true :: ·)
      else if numericValue = 0 then (readBooleans bytes rest).map (false :: ·)
      else none

/-- Value type `0x0010`: a length-prefixed octet string at each offset. -/
def readOctetStrings (bytes : List Nat) : List Nat → Option (List (List Nat))
  | [] => some []
  | off :: rest =>
    if off + 4 > bytes.length then none
    else
      let dataLength := leU32 bytes off
      if off + 4 + dataLength > bytes.length then none
      else
        (readOctetStrings bytes rest).map
          ((bytes.drop (off + 4)).take dataLength :: ·)

/-- Rust `ClaimSecurityAttribute1::try_from_bytes` (outer `none` = panic). -/
def tryFromBytes (bytes : List Nat) : Option (Option ClaimSecurityAttribute1) :=
  if bytes.length < 16 then some none
  else
    let nameOffset := leU32 bytes 0
    let valueType := leU16 bytes 4
    let reserved := leU16 bytes 6
    let flags := leU32 bytes 8
    let valueCount := leU32 bytes 12
    if nameOffset ≥ bytes.length then some none
    else
      match nulTerminatedUtf16leString (bytes.drop nameOffset) with
      | none => none
      | some none => some none
      | some (some name) =>
        match offsetsLoop bytes valueCount 0 with
        | none => some none
        | some offsets =>
          let packaged : Option (Option ClaimValues) :=
            if valueType = 0x0001 then some ((readI64s bytes offsets).map .int64s)
            else if valueType = 0x0002 then some ((readU64s bytes offsets).map .uint64s)
            else if valueType = 0x0003 then (readStrings bytes offsets).map (·.map .strings)
            else if valueType = 0x0005 then (readSids bytes offsets).map (·.map .sids)
            else if valueType = 0x0006 then some ((readBooleans bytes offsets).map .booleans)
            else if valueType = 0x0010 then some ((readOctetStrings bytes offsets).map .octetStrings)
            else some none
          match packaged with
          | none => none
          | some none => some none
          | some (some values) => some (some { name, reserved, flags, values })

end ClaimSecurityAttribute1

/-! ## ACE / ACL / security descriptor (`src/values/structs/security.rs`) -/

inductive AceData where
  | accessAllowed (mask : Nat) (sid : Sid)
  | accessDenied (mask : Nat) (sid : Sid)
  | systemAudit (mask : Nat) (sid : Sid)
  | accessAllowedObject (mask : Nat) (flags : Nat) (object_type : Option Uuid)
      (inherited_object_type : Option Uuid) (sid : Sid)
  | accessDeniedObject (mask : Nat) (flags : Nat) (object_type : Option Uuid)
      (inherited_object_type : Option Uuid) (sid : Sid)
  | systemAuditObject (mask : Nat) (flags : Nat) (object_type : Option Uuid)
      (inherited_object_type : Option Uuid) (sid : Sid)
  | accessAllowedCallback (mask : Nat) (sid : Sid)
  | accessDeniedCallback (mask : Nat) (sid : Sid)
  | accessAllowedCallbackObject (mask : Nat) (flags : Nat) (object_type : Option Uuid)
      (inherited_object_type : Option Uuid) (sid : Sid)
  | accessDeniedCallbackObject (mask : Nat) (flags : Nat) (object_type : Option Uuid)
      (inherited_object_type : Option Uuid) (sid : Sid)
  | systemAuditCallback (mask : Nat) (sid : Sid)
  | systemAuditCallbackObject (mask : Nat) (flags : Nat) (object_type : Option Uuid)
      (inherited_object_type : Option Uuid) (sid : Sid)
  | systemMandatoryLabel (mask : Nat) (sid : Sid)
  | systemResourceAttribute (mask : Nat) (sid : Sid)
      (attribute_data : ClaimSecurityAttribute1)
  | systemScopedPolicyId (mask : Nat) (sid : Sid)
  | other (kind : Nat)
  deriving Repr, DecidableEq

namespace AceData

/-- Rust `AceData::access_mask`. -/
def accessMask : AceData → Option Nat
  | accessAllowed mask _ => some mask
  | accessDenied mask _ => some mask
  | systemAudit mask _ => some mask
  | accessAllowedObject mask _ _ _ _ => some mask
  | accessDeniedObject mask _ _ _ _ => some mask
  | systemAuditObject mask _ _ _ _ => some mask
  | accessAllowedCallback mask _ => some mask
  | accessDeniedCallback mask _ => some mask
  | accessAllowedCallbackObject mask _ _ _ _ => some mask
  | accessDeniedCallbackObject mask _ _ _ _ => some mask
  | systemAuditCallback mask _ => some mask
  | systemAuditCallbackObject mask _ _ _ _ => some mask
  | systemMandatoryLabel _ _ => none
  | systemResourceAttribute mask _ _ => some mask
  | systemScopedPolicyId mask _ => some mask
  | other _ => none

/-- Rust `AceData::object_guid`. -/
def objectGuid : AceData → Option Uuid
  | accessAllowedObject _ _ ot _ _ => ot
  | accessDeniedObject _ _ ot _ _ => ot
  | systemAuditObject _ _ ot _ _ => ot
  | accessAllowedCallbackObject _ _ ot _ _ => ot
  | accessDeniedCallbackObject _ _ ot _ _ => ot
  | systemAuditCallbackObject _ _ ot _ _ => ot
  | _ => none

/-- Rust `AceData::inherit_object_guid`. -/
def inheritObjectGuid : AceData → Option Uuid
  | accessAllowedObject _ _ _ iot _ => iot
  | accessDeniedObject _ _ _ iot _ => iot
  | systemAuditObject _ _ _ iot _ => iot
  | accessAllowedCallbackObject _ _ _ iot _ => iot
  | accessDeniedCallbackObject _ _ _ iot _ => iot
  | systemAuditCallbackObject _ _ _ iot _ => iot
  | _ => none

/-- Rust `AceData::sid`. -/
def sid : AceData → Option Sid
  | accessAllowed _ s => some s
  | accessDenied _ s => some s
  | systemAudit _ s => some s
  | accessAllowedObject _ _ _ _ s => some s
  | accessDeniedObject _ _ _ _ s => some s
  | systemAuditObject _ _ _ _ s => some s
  | accessAllowedCallback _ s => some s
  | accessDeniedCallback _ s => some s
  | accessAllowedCallbackObject _ _ _ _ s => some s
  | accessDeniedCallbackObject _ _ _ _ s => some s
  | systemAuditCallback _ s => some s
  | systemAuditCallbackObject _ _ _ _ s => some s
  | systemMandatoryLabel _ s => some s
  | systemResourceAttribute _ s _ => some s
  | systemScopedPolicyId _ s => some s
  | other _ => none

end AceData

structure Ace where
  flags : Nat
  data : AceData
  application_data : List Nat
  deriving Repr, DecidableEq

namespace Ace

/-- Rust `Ace::get_length`. -/
def getLength (bytes : List Nat) : Option Nat :=
  if bytes.length < 4 then none else some (leU16 bytes 2)

/-- The mask-and-SID shape shared by ACE types
`0x00/0x01/0x02/0x09/0x0A/0x0D/0x13` and (with a different mask type)
`0x11`; returns mask, SID and trailing application data. -/
def maskSidShape (payload : List Nat) : Option (Nat × Sid × List Nat) :=
  if payload.length < 4 then none
  else
    let mask := leU32 payload 0
    match Sid.getLength (payload.drop 4) with
    | none => none
    | some sidSize =>
      match Sid.tryFromBytes ((payload.drop 4).take sidSize) with
      | none => none
      | some sid => some (mask, sid, payload.drop (4 + sidSize))

/-- The object shape of ACE types `0x05/0x06/0x07/0x0B/0x0C/0x0F`:
mask, object flags, up to two GUIDs, SID, application data. -/
def objectShape (payload : List Nat) :
    Option (Nat × Nat × Option Uuid × Option Uuid × Sid × List Nat) :=
  if payload.length < 8 then none
  else
    let mask := leU32 payload 0
    let objectFlags := leU32 payload 4
    -- payload_offset starts at 8; `payload.len() - payload_offset` cannot
    -- underflow because each GUID is only consumed after the length check
    let step1 : Option (Option Uuid × Nat) :=
      if objectFlags &&& 0b01 = 0 then some (none, 8)
      else if payload.length - 8 < 16 then none
      else some (some (uuidFromBytesLE ((payload.drop 8).take 16)), 24)
    match step1 with
    | none => none
    | some (objectType, off1) =>
      let step2 : Option (Option Uuid × Nat) :=
        if objectFlags &&& 0b10 = 0 then some (none, off1)
        else if payload.length - off1 < 16 then none
        else some (some (uuidFromBytesLE ((payload.drop off1).take 16)), off1 + 16)
      match step2 with
      | none => none
      | some (inheritedObjectType, off2) =>
        match Sid.getLength (payload.drop off2) with
        | none => none
        | some sidSize =>
          match Sid.tryFromBytes ((payload.drop off2).take sidSize) with
          | none => none
          | some sid =>
            some (mask, objectFlags, objectType, inheritedObjectType, sid,
              payload.drop (off2 + sidSize))

/-- Rust `Ace::try_from_bytes` (outer `none` = panic, reachable only through
`ClaimSecurityAttribute1`). -/
def tryFromBytes (bytes : List Nat) : Option (Option Ace) :=
  if bytes.length < 4 then some none
  else
    let aceType := bytes.getD 0 0
    let flags := bytes.getD 1 0
    let aceSize := leU16 bytes 2
    if aceSize ≠ bytes.length then some none
    else
      let payload := bytes.drop 4
      if aceType = 0x00 ∨ aceType = 0x01 ∨ aceType = 0x02 ∨ aceType = 0x09
          ∨ aceType = 0x0A ∨ aceType = 0x0D ∨ aceType = 0x13 then
        match maskSidShape payload with
        | none => some none
        | some (mask, sid, applicationData) =>
          let data :=
            if aceType = 0x00 then AceData.accessAllowed mask sid
            else if aceType = 0x01 then AceData.accessDenied mask sid
            else if aceType = 0x02 then AceData.systemAudit mask sid
            else if aceType = 0x09 then AceData.accessAllowedCallback mask sid
            else if aceType = 0x0A then AceData.accessDeniedCallback mask sid
            else if aceType = 0x0D then AceData.systemAuditCallback mask sid
            else AceData.systemScopedPolicyId mask sid
          some (some { flags, data, application_data := applicationData })
      else if aceType = 0x05 ∨ aceType = 0x06 ∨ aceType = 0x07 ∨ aceType = 0x0B
          ∨ aceType = 0x0C ∨ aceType = 0x0F then
        match objectShape payload with
        | none => some none
        | some (mask, objectFlags, ot, iot, sid, applicationData) =>
          let data :=
            if aceType = 0x05 then AceData.accessAllowedObject mask objectFlags ot iot sid
            else if aceType = 0x06 then AceData.accessDeniedObject mask objectFlags ot iot sid
            else if aceType = 0x07 then AceData.systemAuditObject mask objectFlags ot iot sid
            else if aceType = 0x0B then AceData.accessAllowedCallbackObject mask objectFlags ot iot sid
            else if aceType = 0x0C then AceData.accessDeniedCallbackObject mask objectFlags ot iot sid
            else AceData.systemAuditCallbackObject mask objectFlags ot iot sid
          some (some { flags, data, application_data := applicationData })
      else if aceType = 0x11 then
        match maskSidShape payload with
        | none => some none
        | some (mask, sid, applicationData) =>
          some (some { flags, data := AceData.systemMandatoryLabel mask sid, application_data := applicationData })
      else if aceType = 0x12 then
        match maskSidShape payload with
        | none => some none
        | some (mask, sid, attrBytes) =>
          match ClaimSecurityAttribute1.tryFromBytes attrBytes with
          | none => none
          | some none => some none
          | some (some attributeData) =>
            some (some { flags, data := AceData.systemResourceAttribute mask sid attributeData, application_data := [] })
      else
        some (some { flags, data := AceData.other aceType, application_data := bytes.drop 4 })

end Ace

structure Acl where
  revision : Nat
  sbz1 : Nat
  sbz2 : Nat
  entries : List Ace
  deriving Repr, DecidableEq

namespace Acl

/-- Rust `Acl::get_length`. -/
def getLength (bytes : List Nat) : Option Nat :=
  if bytes.length < 8 then none
  else if bytes.getD 0 0 ≠ 0x02 ∧ bytes.getD 0 0 ≠ 0x04 then none
  else some (leU16 bytes 2)

/-- The ACE-reading loop of `Acl::try_from_bytes` (outer `none` = panic,
propagated from `Ace::try_from_bytes`). -/
def acesLoop (bytes : List Nat) : Nat → Nat → Option (Option (List Ace))
  | 0, _ => some (some [])
  | n+1, currentOffset =>
    match Ace.getLength (bytes.drop currentOffset) with
    | none => some none
    | some aceSize =>
      if currentOffset + aceSize > bytes.length then some none
      else
        match Ace.tryFromBytes ((bytes.drop currentOffset).take aceSize) with
        | none => none
        | some none => some none
        | some (some ace) =>
          (acesLoop bytes n (currentOffset + aceSize)).map (·.map (ace :: ·))

/-- Rust `Acl::try_from_bytes` (outer `none` = panic). -/
def tryFromBytes (bytes : List Nat) : Option (Option Acl) :=
  if bytes.length < 8 then some none
  else if bytes.getD 0 0 ≠ 0x02 ∧ bytes.getD 0 0 ≠ 0x04 then some none
  else
    let revision := bytes.getD 0 0
    let sbz1 := bytes.getD 1 0
    let aclSize := leU16 bytes 2
    if bytes.length ≠ aclSize then some none
    else
      let aceCount := leU16 bytes 4
      let sbz2 := leU16 bytes 6
      match acesLoop bytes aceCount 8 with
      | none => none
      | some none => some none
      | some (some entries) => some (some { revision, sbz1, sbz2, entries })

end Acl

structure SecurityDescriptor where
  revision : Nat
  sbz1 : Nat
  control : Nat
  owner : Option Sid
  group : Option Sid
  sacl : Option Acl
  dacl : Option Acl
  deriving Repr, DecidableEq

namespace SecurityDescriptor

/-- One optional SID field of `SecurityDescriptor::try_from_bytes`:
outermost `none` = panic, next layer = decode failure of the whole
security descriptor, innermost layer = the field being absent. -/
def readSidField (bytes : List Nat) (offset : Nat) : Option (Option (Option Sid)) :=
  if offset = 0 then some (some none)
  else if offset ≥ bytes.length then some none
  else
    match Sid.getLength (bytes.drop offset) with
    | none => some none
    | some size =>
      match listSlice bytes offset (offset + size) with
      | none => none
      | some sl =>
        match Sid.tryFromBytes sl with
        | none => some none
        | some sid => some (some (some sid))

/-- One optional ACL field of `SecurityDescriptor::try_from_bytes`.
`Acl::get_length` returns the *declared* ACL size without checking it
against the remaining buffer, so the subsequent
`&bytes[offset..offset+size]` slice can go out of range: that is the
`listSlice … = none` (panic) path. -/
def readAclField (bytes : List Nat) (offset : Nat) : Option (Option (Option Acl)) :=
  if offset = 0 then some (some none)
  else if offset ≥ bytes.length then some none
  else
    match Acl.getLength (bytes.drop offset) with
    | none => some none
    | some size =>
      match listSlice bytes offset (offset + size) with
      | none => none
      | some sl =>
        match Acl.tryFromBytes sl with
        | none => none
        | some none => some none
        | some (some acl) => some (some (some acl))

/-- Rust `SecurityDescriptor::try_from_bytes` (outer `none` = panic). -/
def tryFromBytes (bytes : List Nat) : Option (Option SecurityDescriptor) :=
  if bytes.length < 20 then some none
  else if bytes.getD 0 0 ≠ 1 then some none
  else
    let revision := bytes.getD 0 0
    let sbz1 := bytes.getD 1 0
    let control := leU16 bytes 2
    if control &&& 0x8000 = 0 then some none  -- must be self-relative
    else
      let offsetOwner := leU32 bytes 4
      let offsetGroup := leU32 bytes 8
      let offsetSacl := leU32 bytes 12
      let offsetDacl := leU32 bytes 16
      match readSidField bytes offsetOwner with
      | none => none
      | some none => some none
      | some (some owner) =>
        match readSidField bytes offsetGroup with
        | none => none
        | some none => some none
        | some (some group) =>
          match readAclField bytes offsetSacl with
          | none => none
          | some none => some none
          | some (some sacl) =>
            match readAclField bytes offsetDacl with
            | none => none
            | some none => some none
            | some (some dacl) =>
              some (some { revision, sbz1, control, owner, group, sacl, dacl })

end SecurityDescriptor

/-! ## SDDL rendering (`src/values/structs/security.rs`) -/

namespace Sid

/-- Rust `Sid::as_well_known_sddl_sid_string`. -/
def asWellKnownSddlSidString (sid : Sid) : Option (List Char) :=
  if sid.version ≠ 1 then none
  else
    match sid.authority, sid.subauthorities with
    | 1, [0] => some ['W', 'D']
    | 3, [0] => some ['C', 'O']
    | 3, [1] => some ['C', 'G']
    | 3, [4] => some ['O', 'W']
    | 5, [2] => some ['N', 'U']
    | 5, [4] => some ['I', 'U']
    | 5, [6] => some ['S', 'U']
    | 5, [7] => some ['A', 'N']
    | 5, [9] => some ['E', 'D']
    | 5, [10] => some ['P', 'S']
    | 5, [11] => some ['A', 'U']
    | 5, [12] => some ['R', 'C']
    | 5, [18] => some ['S', 'Y']
    | 5, [19] => some ['L', 'S']
    | 5, [20] => some ['N', 'S']
    | 5, [33] => some ['W', 'R']
    | 5, [32, 544] => some ['B', 'A']
    | 5, [32, 545] => some ['B', 'U']
    | 5, [32, 546] => some ['B', 'G']
    | 5, [32, 547] => some ['P', 'U']
    | 5, [32, 548] => some ['A', 'O']
    | 5, [32, 549] => some ['S', 'O']
    | 5, [32, 550] => some ['P', 'O']
    | 5, [32, 551] => some ['B', 'O']
    | 5, [32, 552] => some ['R', 'E']
    | 5, [32, 553] => some ['R', 'S']
    | 5, [32, 554] => some ['R', 'U']
    | 5, [32, 555] => some ['R', 'D']
    | 5, [32, 556] => some ['N', 'O']
    | 5, [32, 558] => some ['M', 'U']
    | 5, [32, 559] => some ['L', 'U']
    | 5, [32, 568] => some ['I', 'S']
    | 5, [32, 569] => some ['C', 'Y']
    | 5, [32, 573] => some ['E', 'R']
    | 5, [32, 574] => some ['C', 'D']
    | 5, [32, 575] => some ['R', 'A']
    | 5, [32, 576] => some ['E', 'S']
    | 5, [32, 578] => some ['H', 'A']
    | 5, [32, 579] => some ['A', 'A']
    | 5, [32, 584] => some ['H', 'O']
    | 15, [2, 1] => some ['A', 'C']
    | 16, [4096] => some ['L', 'W']
    | 16, [8192] => some ['M', 'E']
    | 16, [8448] => some ['M', 'P']
    | 16, [12288] => some ['H', 'I']
    | 16, [16384] => some ['S', 'I']
    | 18, [2] => some ['S', 'S']
    | _, _ => none

/-- Rust `Sid::to_sddl_sid_string`. -/
def toSddlSidString (sid : Sid) : List Char :=
  match asWellKnownSddlSidString sid with
  | some s => s
  | none => toChars sid

end Sid

/-- One lowercase hexadecimal digit. -/
def hexDigitChar (n : Nat) : Char :=
  if n < 10 then Char.ofNat (48 + n) else Char.ofNat (87 + n)

/-- Writes `width` lowercase hexadecimal digits of `n`, most significant first. -/
def natToHex (n width : Nat) : List Char :=
  (List.range width).reverse.map (fun i => hexDigitChar (n / 16 ^ i % 16))

/-- Two hex digits for each byte. -/
def bytesHex (l : List Nat) : List Char :=
  l.flatMap (fun b => natToHex b 2)

/-- The `uuid` crate's hyphenated lowercase rendering used by
`write!(…, "{}", object_guid)`. -/
def uuidToChars (u : Uuid) : List Char :=
  natToHex u.d1 8 ++ ['-'] ++ natToHex u.d2 4 ++ ['-'] ++ natToHex u.d3 4
    ++ ['-'] ++ bytesHex (u.d4.take 2) ++ ['-'] ++ bytesHex (u.d4.drop 2)

namespace Acl

/-- The two-or-three-letter SDDL code of an ACE type; `none` for the two
deliberately unsupported callback-object types and the `Other` catch-all. -/
def aceTypeCode : AceData → Option (List Char)
  | .accessAllowed _ _ => some ['A']
  | .accessDenied _ _ => some ['D']
  | .systemAudit _ _ => some ['A', 'U']
  | .accessAllowedObject _ _ _ _ _ => some ['O', 'A']
  | .accessDeniedObject _ _ _ _ _ => some ['O', 'D']
  | .systemAuditObject _ _ _ _ _ => some ['O', 'U']
  | .accessAllowedCallback _ _ => some ['X', 'A']
  | .accessDeniedCallback _ _ => some ['X', 'D']
  | .accessAllowedCallbackObject _ _ _ _ _ => some ['Z', 'A']
  | .accessDeniedCallbackObject _ _ _ _ _ => none  -- unsupported!
  | .systemAuditCallback _ _ => some ['X', 'U']
  | .systemAuditCallbackObject _ _ _ _ _ => none  -- unsupported!
  | .systemMandatoryLabel _ _ => some ['M', 'L']
  | .systemResourceAttribute _ _ _ => some ['R', 'A']
  | .systemScopedPolicyId _ _ => some ['S', 'P']
  | .other _ => none

/-- The union of all defined `AceFlags` bits (`AceFlags::truncate`). -/
def aceFlagsKnown : Nat := 0xDF

/-- The union of all defined `AccessMask` bits (`AccessMask::truncate`). -/
def accessMaskKnown : Nat := 0x000F01FF

/-- The union of all defined `MandatoryMask` bits. -/
def mandatoryMaskKnown : Nat := 0x7

/-- The fixed-order ACE flag codes. -/
def aceFlagsChars (flags : Nat) : List Char :=
  (if flags &&& 0x02 ≠ 0 then ['C', 'I'] else [])
    ++ (if flags &&& 0x01 ≠ 0 then ['O', 'I'] else [])
    ++ (if flags &&& 0x04 ≠ 0 then ['N', 'P'] else [])
    ++ (if flags &&& 0x08 ≠ 0 then ['I', 'O'] else [])
    ++ (if flags &&& 0x10 ≠ 0 then ['I', 'D'] else [])
    ++ (if flags &&& 0x40 ≠ 0 then ['S', 'A'] else [])
    ++ (if flags &&& 0x80 ≠ 0 then ['F', 'A'] else [])

/-- The fixed-order access-mask rights codes. -/
def accessMaskChars (mask : Nat) : List Char :=
  (if mask &&& 0x0001 ≠ 0 then ['C', 'C'] else [])
    ++ (if mask &&& 0x0002 ≠ 0 then ['D', 'C'] else [])
    ++ (if mask &&& 0x0004 ≠ 0 then ['L', 'C'] else [])
    ++ (if mask &&& 0x0008 ≠ 0 then ['S', 'W'] else [])
    ++ (if mask &&& 0x0010 ≠ 0 then ['R', 'P'] else [])
    ++ (if mask &&& 0x0020 ≠ 0 then ['W', 'P'] else [])
    ++ (if mask &&& 0x0040 ≠ 0 then ['D', 'T'] else [])
    ++ (if mask &&& 0x0080 ≠ 0 then ['L', 'O'] else [])
    ++ (if mask &&& 0x0100 ≠ 0 then ['C', 'R'] else [])
    ++ (if mask &&& 0x10000 ≠ 0 then ['S', 'D'] else [])
    ++ (if mask &&& 0x20000 ≠ 0 then ['R', 'C'] else [])
    ++ (if mask &&& 0x40000 ≠ 0 then ['W', 'D'] else [])
    ++ (if mask &&& 0x80000 ≠ 0 then ['W', 'O'] else [])

/-- The fixed-order mandatory-label rights codes (NR before NW before NX). -/
def mandatoryMaskChars (mask : Nat) : List Char :=
  (if mask &&& 0x2 ≠ 0 then ['N', 'R'] else [])
    ++ (if mask &&& 0x1 ≠ 0 then ['N', 'W'] else [])
    ++ (if mask &&& 0x4 ≠ 0 then ['N', 'X'] else [])

/-- The rights field of one ACE: the recognised-bits check plus the code
letters, for either an access mask or a mandatory-label mask. -/
def aceMaskChars (data : AceData) : Option (List Char) :=
  match data.accessMask with
  | some mask =>
    if mask &&& accessMaskKnown ≠ mask then none
    else some (accessMaskChars mask)
  | none =>
    match data with
    | .systemMandatoryLabel mask _ =>
      if mask &&& mandatoryMaskKnown ≠ mask then none
      else some (mandatoryMaskChars mask)
    | _ => none

/-- The loop body of `Acl::try_to_string`: the rendering of a single ACE,
`none` on any bail-out condition. -/
def aceToString (ace : Ace) : Option (List Char) :=
  if ace.application_data ≠ [] then none
  else
    match aceTypeCode ace.data with
    | none => none
    | some typeCode =>
      if ace.flags &&& aceFlagsKnown ≠ ace.flags then none
      else
        match aceMaskChars ace.data with
        | none => none
        | some maskStr =>
          let objStr := match ace.data.objectGuid with
            | some g => uuidToChars g
            | none => []
          let inhStr := match ace.data.inheritObjectGuid with
            | some g => uuidToChars g
            | none => []
          match ace.data.sid with
          | none => none
          | some sid =>
            some (['('] ++ typeCode ++ [';'] ++ aceFlagsChars ace.flags ++ [';']
              ++ maskStr ++ [';'] ++ objStr ++ [';'] ++ inhStr ++ [';']
              ++ Sid.toSddlSidString sid ++ [')'])

/-- The entry iteration of `Acl::try_to_string`. -/
def entriesToString : List Ace → Option (List Char)
  | [] => some []
  | ace :: rest =>
    match aceToString ace with
    | none => none
    | some s => (entriesToString rest).map (s ++ ·)

/-- Rust `Acl::try_to_string`. -/
def tryToString (acl : Acl) : Option (List Char) :=
  entriesToString acl.entries

end Acl

namespace SecurityDescriptor

/-- Rust `OwnerDefaulted | GroupDefaulted | DaclDefaulted | SaclDefaulted |
RmControlValid`: the control bits SDDL cannot represent. -/
def sddlRejectedControl : Nat := 0x402B

/-- One `D:`/`S:` section of `SecurityDescriptor::try_to_string`. -/
def aclPart (control : Nat) (tag : Char) (pBit arBit aiBit : Nat) :
    Option Acl → Option (List Char)
  | none => some []
  | some acl =>
    (Acl.tryToString acl).map (fun s =>
      [tag, ':']
        ++ (if control &&& pBit ≠ 0 then ['P'] else [])
        ++ (if control &&& arBit ≠ 0 then ['A', 'R'] else [])
        ++ (if control &&& aiBit ≠ 0 then ['A', 'I'] else [])
        ++ s)

/-- Rust `SecurityDescriptor::try_to_string`. -/
def tryToString (sd : SecurityDescriptor) : Option (List Char) :=
  if sd.control &&& sddlRejectedControl ≠ 0 then none
  else
    let ownerPart := match sd.owner with
      | some o => ['O', ':'] ++ Sid.toSddlSidString o
      | none => []
    let groupPart := match sd.group with
      | some g => ['G', ':'] ++ Sid.toSddlSidString g
      | none => []
    match aclPart sd.control 'D' 0x1000 0x0100 0x0400 sd.dacl with
    | none => none
    | some daclPart =>
      match aclPart sd.control 'S' 0x2000 0x0200 0x0800 sd.sacl with
      | none => none
      | some saclPart =>
        some (ownerPart ++ groupPart ++ daclPart ++ saclPart)

/-- The ACEs contained in a security descriptor: those of the system ACL
followed by those of the discretionary ACL, when present. -/
def aces (sd : SecurityDescriptor) : List Ace :=
  (match sd.sacl with
    | some acl => acl.entries
    | none => [])
  ++ (match sd.dacl with
    | some acl => acl.entries
    | none => [])

end SecurityDescriptor

/-! ## Dispatch / rendering layer (`src/values.rs`) -/

/-- Rust `LdapValue`: an attribute value as delivered by the protocol layer. -/
inductive LdapValue where
  | string (s : List Char)
  | binary (b : List Nat)
  deriving Repr, DecidableEq

/-- Standard UTF-8 encoding of one scalar value (`str::as_bytes`). -/
def utf8EncodeChar (c : Char) : List Nat :=
  let n := c.toNat
  if n < 0x80 then [n]
  else if n < 0x800 then [0xC0 + n / 64, 0x80 + n % 64]
  else if n < 0x10000 then [0xE0 + n / 4096, 0x80 + n / 64 % 64, 0x80 + n % 64]
  else [0xF0 + n / 262144, 0x80 + n / 4096 % 64, 0x80 + n / 64 % 64, 0x80 + n % 64]

/-- Rust `str::as_bytes`: the UTF-8 bytes of a string. -/
def utf8Encode (s : List Char) : List Nat :=
  s.flatMap utf8EncodeChar

/-- One character of the standard Base64 alphabet. -/
def base64Char (n : Nat) : Char :=
  if n < 26 then Char.ofNat (65 + n)
  else if n < 52 then Char.ofNat (97 + (n - 26))
  else if n < 62 then Char.ofNat (48 + (n - 52))
  else if n = 62 then '+'
  else '/'

/-- Rust `BASE64_STANDARD.encode` on a byte sequence (padded, no line breaks). -/
def base64Encode : List Nat → List Char
  | [] => []
  | [b0] =>
    [base64Char (b0 / 4), base64Char (b0 % 4 * 16), '=', '=']
  | [b0, b1] =>
    [base64Char (b0 / 4), base64Char (b0 % 4 * 16 + b1 / 16),
      base64Char (b1 % 16 * 4), '=']
  | b0 :: b1 :: b2 :: rest =>
    [base64Char (b0 / 4), base64Char (b0 % 4 * 16 + b1 / 16),
      base64Char (b1 % 16 * 4 + b2 / 64), base64Char (b2 % 64)]
      ++ base64Encode rest

/-- Rust `is_safe_ldap_string` (`src/values.rs`). -/
def isSafeLdapString (s : List Char) : Bool :=
  match s with
  | [] => true  -- empty strings are safe
  | firstChar :: rest =>
    if firstChar = '\x00' ∨ firstChar = '\n' ∨ firstChar = '\r'
        ∨ firstChar = ' ' ∨ firstChar = ':' ∨ firstChar = '<' then
      false
    else rest.all (fun c => ¬(c = '\x00' ∨ c = '\n' ∨ c = '\r'))

/-- Rust `output_string_value_as_string`: the single printed line, either
`key: value` verbatim or `key:: <base64>`. -/
def outputStringValueAsString (key strValue : List Char) : List (List Char) :=
  if isSafeLdapString strValue then [key ++ [':', ' '] ++ strValue]
  else [key ++ [':', ':', ' '] ++ base64Encode (utf8Encode strValue)]

/-- Rust `TimeDelta::microseconds`, as total nanoseconds. -/
def timeDeltaMicroseconds (x : Int) : Int := x * 1000

/-- Rust `TimeDelta::nanoseconds`, as total nanoseconds. -/
def timeDeltaNanoseconds (x : Int) : Int := x

/-- Rust `TimeDelta::num_seconds`: whole seconds, truncating toward zero. -/
def timeDeltaNumSeconds (ns : Int) : Int := ns.tdiv 1000000000

/-- Rust `output_negative_interval_value` (`src/values.rs`): the printed line. -/
def outputNegativeIntervalValue (key value : List Char) : List (List Char) :=
  match parseI64 value with
  | none => outputStringValueAsString key value
  | some parsed =>
    if parsed = -(2^63) then
      [key ++ [':', ' '] ++ value ++ (" (never)".toList)]
    else
      let positive := -parsed
      let microseconds := timeDeltaMicroseconds (positive.tdiv 10)
      let remainingNanoseconds := timeDeltaNanoseconds (positive.tmod 10 * 100)
      let delta := microseconds + remainingNanoseconds
      let rest := timeDeltaNumSeconds delta
      let seconds := rest.tmod 60
      let rest1 := rest.tdiv 60
      let minutes := rest1.tmod 60
      let rest2 := rest1.tdiv 60
      let hours := rest2.tmod 24
      let days := rest2.tdiv 24
      [key ++ [':', ' '] ++ value ++ [' ', '('] ++ intChars days ++ ['d', ' ']
        ++ intChars hours ++ ['h', ' '] ++ intChars minutes ++ ['m', 'i', 'n', ' ']
        ++ intChars seconds ++ ['s', ')']]

/-- A consultation of one of the two decoder tables. -/
inductive Attempt where
  | text
  | binary
  deriving Repr, DecidableEq

/-- What one value renders to. -/
inductive RenderResult (α : Type) where
  | handled (a : α)
  | hexdump (bytes : List Nat)
  | plain (lines : List (List Char))
  deriving Repr

/-- The per-value body of `output_values` (`src/values.rs`, lines
624–642), parametric over the two decoder tables
`output_special_string_value` and `output_special_binary_value`
(modelled as returning `some` of their rendering when some decoder in the
table matched, `none` when every decoder failed).  Also records, in
order, which tables were consulted. -/
def outputValue {α : Type}
    (specialString : List Char → List Char → List LdapValue → Option α)
    (specialBinary : List Char → List Nat → Option α)
    (key : List Char) (objectClasses : List LdapValue) :
    LdapValue → List Attempt × RenderResult α
  | .binary binValue =>
    match specialBinary key binValue with
    | some a => ([.binary], .handled a)
    | none => ([.binary], .hexdump binValue)
  | .string strValue =>
    match specialString key strValue objectClasses with
    | some a => ([.text], .handled a)
    | none =>
      -- maybe a binary value was heuristically misdetected as a string
      match specialBinary key (utf8Encode strValue) with
      | some a => ([.text, .binary], .handled a)
      | none => ([.text, .binary], .plain (outputStringValueAsString key strValue))

/-- Rust `output_values`: every value of the attribute in order. -/
def outputValues {α : Type}
    (specialString : List Char → List Char → List LdapValue → Option α)
    (specialBinary : List Char → List Nat → Option α)
    (key : List Char) (values : List LdapValue) (objectClasses : List LdapValue) :
    List (List Attempt × RenderResult α) :=
  values.map (outputValue specialString specialBinary key objectClasses)

/-- Stated from the claim: the ACE types with no defined SDDL textual
code — the two unsupported callback-object types and the `Other`
catch-all. -/
def aceTypeHasNoCode : AceData → Prop
  | .accessDeniedCallbackObject _ _ _ _ _ => True
  | .systemAuditCallbackObject _ _ _ _ _ => True
  | .other _ => True
  | _ => False

/-- Stated from the claim: the ACE's access mask (or mandatory-label
mask) contains a bit the renderer does not recognise. -/
def aceMaskUnrecognized (d : AceData) : Prop :=
  (∃ m, d.accessMask = some m ∧ m &&& Acl.accessMaskKnown ≠ m)
  ∨ ∃ m s, d = .systemMandatoryLabel m s ∧ m &&& Acl.mandatoryMaskKnown ≠ m

end AdLdapSearch

/-! # Theorems -/

namespace AdLdapSearch

theorem natDigitsAux_ofDigits :
    ∀ fuel n, n ≤ fuel → Nat.ofDigits 10 (natDigitsAux fuel n) = n := by
  intro fuel
  induction fuel with
  | zero => intro n hn; interval_cases n; simp [natDigitsAux]
  | succ fuel ih =>
    intro n hn
    by_cases h0 : n = 0
    · simp [natDigitsAux, h0]
    · rw [natDigitsAux, if_neg h0, Nat.ofDigits_cons,
        ih (n / 10) (by omega)]
      omega

theorem natDigitsAux_lt :
    ∀ fuel n d, d ∈ natDigitsAux fuel n → d < 10 := by
  intro fuel
  induction fuel with
  | zero => intro n d hd; simp [natDigitsAux] at hd
  | succ fuel ih =>
    intro n d hd
    rw [natDigitsAux] at hd
    by_cases h0 : n = 0
    · simp [h0] at hd
    · rw [if_neg h0] at hd
      rcases List.mem_cons.mp hd with h | h
      · omega
      · exact ih _ _ h

theorem digitChar_sub48 {d : Nat} (h : d < 10) :
    (Nat.digitChar d).toNat - 48 = d := by
  interval_cases d <;> decide

theorem isDigit_digitChar {d : Nat} (h : d < 10) :
    (Nat.digitChar d).isDigit = true := by
  interval_cases d <;> decide

theorem foldl_digitChars :
    ∀ (l : List Nat), (∀ d ∈ l, d < 10) → ∀ acc : Nat,
      List.foldl (fun a c => 10 * a + (c.toNat - 48)) acc ((l.map Nat.digitChar).reverse)
        = acc * 10 ^ l.length + Nat.ofDigits 10 l := by
  intro l
  induction l with
  | nil => intro _ acc; simp
  | cons d t ih =>
    intro hl acc
    have hd : d < 10 := hl d (List.mem_cons_self d t)
    have ht : ∀ x ∈ t, x < 10 := fun x hx => hl x (List.mem_cons_of_mem _ hx)
    rw [List.map_cons, List.reverse_cons, List.foldl_append, ih ht acc]
    simp only [List.foldl_cons, List.foldl_nil, digitChar_sub48 hd,
      Nat.ofDigits_cons, List.length_cons, pow_succ]
    ring

theorem digitsVal_natChars (n : Nat) : digitsVal (natChars n) = n := by
  by_cases h0 : n = 0
  · subst h0; decide
  · rw [natChars, if_neg h0]
    unfold digitsVal
    rw [foldl_digitChars _ (fun d hd => natDigitsAux_lt n n d hd) 0,
      natDigitsAux_ofDigits n n le_rfl]
    simp

theorem natChars_all_isDigit (n : Nat) :
    ∀ c ∈ natChars n, c.isDigit = true := by
  intro c hc
  by_cases h0 : n = 0
  · subst h0; simp [natChars] at hc; subst hc; decide
  · rw [natChars, if_neg h0] at hc
    rw [List.mem_reverse] at hc
    rcases List.mem_map.mp hc with ⟨d, hd, rfl⟩
    exact isDigit_digitChar (natDigitsAux_lt n n d hd)

theorem natChars_ne_nil (n : Nat) : natChars n ≠ [] := by
  by_cases h0 : n = 0
  · subst h0; decide
  · rw [natChars, if_neg h0]
    match hn : n, h0 with
    | m + 1, _ =>
      rw [natDigitsAux]
      simp

theorem natChars_no_dash (n : Nat) : '-' ∉ natChars n := by
  intro hmem
  have := natChars_all_isDigit n _ hmem
  simp at this

theorem natChars_no_plus_head (n : Nat) :
    stripPlus (natChars n) = natChars n := by
  rcases hn : natChars n with _ | ⟨c, cs⟩
  · rfl
  · have hc : c.isDigit = true := by
      have := natChars_all_isDigit n c
      rw [hn] at this
      exact this (List.mem_cons_self c cs)
    have : c ≠ '+' := by
      intro h
      subst h
      simp at hc
    simp [stripPlus, this]

theorem parseU64_natChars {n : Nat} (h : n < 2^64) :
    parseU64 (natChars n) = some n := by
  unfold parseU64
  rw [natChars_no_plus_head]
  rw [if_neg (natChars_ne_nil n)]
  have hall : (natChars n).all Char.isDigit = true :=
    List.all_eq_true.mpr (fun c hc => natChars_all_isDigit n c hc)
  rw [hall]
  simp only [if_true]
  rw [digitsVal_natChars]
  rw [if_pos (by omega)]

theorem splitOnDash_ne_nil (s : List Char) : splitOnDash s ≠ [] := by
  induction s with
  | nil => simp [splitOnDash]
  | cons c rest ih =>
    rw [splitOnDash]
    split_ifs
    · simp
    · rcases h : splitOnDash rest with _ | ⟨t, ts⟩
      · exact absurd h ih
      · simp

theorem splitOnDash_no_dash {t : List Char} (h : '-' ∉ t) :
    splitOnDash t = [t] := by
  induction t with
  | nil => rfl
  | cons c rest ih =>
    have hc : c ≠ '-' := fun hcc => h (hcc ▸ List.mem_cons_self c rest)
    have hr : '-' ∉ rest := fun hm => h (List.mem_cons_of_mem _ hm)
    rw [splitOnDash, if_neg hc, ih hr]

theorem splitOnDash_append {t rest : List Char} (h : '-' ∉ t) :
    splitOnDash (t ++ '-' :: rest) = t :: splitOnDash rest := by
  induction t with
  | nil => simp [splitOnDash]
  | cons c tl ih =>
    have hc : c ≠ '-' := fun hcc => h (hcc ▸ List.mem_cons_self c tl)
    have htl : '-' ∉ tl := fun hm => h (List.mem_cons_of_mem _ hm)
    rw [List.cons_append, splitOnDash, if_neg hc, ih htl]

theorem splitOnDash_tokens :
    ∀ (subs : List Nat) (t : List Char), '-' ∉ t →
      splitOnDash (t ++ subs.flatMap (fun s => '-' :: natChars s))
        = t :: subs.map natChars := by
  intro subs
  induction subs with
  | nil => intro t ht; simp [splitOnDash_no_dash ht]
  | cons s rest ih =>
    intro t ht
    have : t ++ (s :: rest).flatMap (fun x => '-' :: natChars x)
        = t ++ '-' :: (natChars s ++ rest.flatMap (fun x => '-' :: natChars x)) := by
      simp
    rw [this, splitOnDash_append ht, ih (natChars s) (natChars_no_dash s)]
    simp

theorem parseSubs_map {subs : List Nat} (h : ∀ s ∈ subs, s < 2^32) :
    Sid.parseSubs (subs.map natChars) = some subs := by
  induction subs with
  | nil => rfl
  | cons s rest ih =>
    have hs : s < 2^32 := h s (List.mem_cons_self s rest)
    have hrest : ∀ x ∈ rest, x < 2^32 := fun x hx => h x (List.mem_cons_of_mem _ hx)
    rw [List.map_cons, Sid.parseSubs, parseU64_natChars (by omega)]
    dsimp only
    rw [if_neg (by omega), ih hrest]
    rfl

theorem getD_lt_of_allBytes {l : List Nat} (hb : AllBytes l) (i : Nat) :
    l.getD i 0 < 256 := by
  rcases h : l[i]? with _ | x
  · simp [List.getD_eq_getElem?_getD, h]
  · have hx : x ∈ l := List.getElem?_mem h
    have := hb x hx
    simp [List.getD_eq_getElem?_getD, h]
    omega

/-- Closed form of `Sid::try_from_bytes`. -/
theorem sid_tryFromBytes_eq (b : List Nat) :
    Sid.tryFromBytes b =
      if 8 ≤ b.length ∧ b.getD 0 0 = 1 ∧ b.length = 8 + 4 * b.getD 1 0 then
        some { version := 1
               authority := b.getD 2 0 * 2^40 + b.getD 3 0 * 2^32
                 + b.getD 4 0 * 2^24 + b.getD 5 0 * 2^16 + b.getD 6 0 * 2^8
                 + b.getD 7 0
               subauthorities :=
                 (List.range (b.getD 1 0)).map (fun i => leU32 b (8 + 4 * i)) }
      else none := by
  unfold Sid.tryFromBytes Sid.subauthorityCountFromSlice
  by_cases h1 : b.length < 8
  · rw [if_pos h1, if_neg (by omega)]
  · rw [if_neg h1]
    by_cases h2 : b.getD 0 0 = 1
    · rw [if_neg (show ¬(b.getD 0 0 ≠ 1) from fun hne => hne h2)]
      by_cases h3 : b.length < 8 + 4 * b.getD 1 0
      · rw [if_pos h3, if_neg (by omega)]
      · rw [if_neg h3]
        dsimp only
        by_cases h4 : b.length = 8 + 4 * b.getD 1 0
        · rw [if_neg (by omega), if_pos ⟨by omega, h2, h4⟩]
        · rw [if_pos (by omega), if_neg (by omega)]
    · rw [if_pos h2, if_neg (by omega)]

theorem sid_tryFromBytes_fields {b : List Nat} {sid : Sid}
    (h : Sid.tryFromBytes b = some sid) :
    sid.version = 1
    ∧ sid.authority = b.getD 2 0 * 2^40 + b.getD 3 0 * 2^32
        + b.getD 4 0 * 2^24 + b.getD 5 0 * 2^16 + b.getD 6 0 * 2^8 + b.getD 7 0
    ∧ sid.subauthorities
        = (List.range (b.getD 1 0)).map (fun i => leU32 b (8 + 4 * i)) := by
  rw [sid_tryFromBytes_eq] at h
  split_ifs at h
  cases h
  exact ⟨rfl, rfl, rfl⟩

theorem leU32_lt {l : List Nat} (hb : AllBytes l) (i : Nat) :
    leU32 l i < 2^32 := by
  have h0 := getD_lt_of_allBytes hb i
  have h1 := getD_lt_of_allBytes hb (i+1)
  have h2 := getD_lt_of_allBytes hb (i+2)
  have h3 := getD_lt_of_allBytes hb (i+3)
  unfold leU32
  omega

theorem sid_tryFromBytes_bounds {b : List Nat} {sid : Sid} (hb : AllBytes b)
    (h : Sid.tryFromBytes b = some sid) :
    sid.authority < 2^48 ∧ ∀ s ∈ sid.subauthorities, s < 2^32 := by
  obtain ⟨_, hauth, hsubs⟩ := sid_tryFromBytes_fields h
  constructor
  · have h2 := getD_lt_of_allBytes hb 2
    have h3 := getD_lt_of_allBytes hb 3
    have h4 := getD_lt_of_allBytes hb 4
    have h5 := getD_lt_of_allBytes hb 5
    have h6 := getD_lt_of_allBytes hb 6
    have h7 := getD_lt_of_allBytes hb 7
    omega
  · intro s hs
    rw [hsubs] at hs
    rcases List.mem_map.mp hs with ⟨i, _, rfl⟩
    exact leU32_lt hb _

theorem fromChars_toChars {sid : Sid} (hv : sid.version = 1)
    (ha : sid.authority < 2^48) (hs : ∀ s ∈ sid.subauthorities, s < 2^32) :
    Sid.fromChars (Sid.toChars sid) = some sid := by
  obtain ⟨v, a, subs⟩ := sid
  simp only at hv ha hs
  subst hv
  have htake : (Sid.toChars ⟨1, a, subs⟩).take 2 = ['S', '-'] := rfl
  have hsplit : splitOnDash ((Sid.toChars ⟨1, a, subs⟩).drop 2)
      = ['1'] :: natChars a :: subs.map natChars := by
    rw [show (Sid.toChars ⟨1, a, subs⟩).drop 2
        = ['1'] ++ '-' :: (natChars a ++ subs.flatMap (fun s => '-' :: natChars s))
      from rfl]
    rw [splitOnDash_append (by decide),
      splitOnDash_tokens subs (natChars a) (natChars_no_dash a)]
  unfold Sid.fromChars
  rw [if_pos htake, hsplit]
  dsimp only
  rw [if_pos rfl]
  rw [parseU64_natChars (by omega)]
  dsimp only
  rw [if_neg (by omega), parseSubs_map hs]

/-- Claim C5: `Sid::try_from_bytes(b)` succeeds exactly when `b` has at
least 8 entries, `b[0] = 1`, and `b`'s length is exactly `8 + 4·b[1]`;
on success the authority is the big-endian value of bytes 2–7 and the
subauthorities are the little-endian 32-bit words starting at offset 8. -/
theorem sid_decode_exact_layout (b : List Nat) :
    ((Sid.tryFromBytes b).isSome ↔
      8 ≤ b.length ∧ b.getD 0 0 = 1 ∧ b.length = 8 + 4 * b.getD 1 0)
    ∧ ∀ sid, Sid.tryFromBytes b = some sid →
        sid.authority = b.getD 2 0 * 2^40 + b.getD 3 0 * 2^32
          + b.getD 4 0 * 2^24 + b.getD 5 0 * 2^16 + b.getD 6 0 * 2^8 + b.getD 7 0
        ∧ sid.subauthorities
          = (List.range (b.getD 1 0)).map (fun i => leU32 b (8 + 4 * i)) := by
  constructor
  · rw [sid_tryFromBytes_eq]
    split_ifs with h
    · simpa using h
    · simpa using h
  · intro sid h
    exact (sid_tryFromBytes_fields h).2

theorem sid_decode_exact_layout_witness :
    (Sid.tryFromBytes [1, 1, 0, 0, 0, 0, 0, 5, 21, 0, 0, 0]).isSome
    ∧ (Sid.mk 1 5 [21]).authority
        = [1, 1, 0, 0, 0, 0, 0, 5, 21, 0, 0, 0].getD 2 0 * 2^40
          + [1, 1, 0, 0, 0, 0, 0, 5, 21, 0, 0, 0].getD 3 0 * 2^32
          + [1, 1, 0, 0, 0, 0, 0, 5, 21, 0, 0, 0].getD 4 0 * 2^24
          + [1, 1, 0, 0, 0, 0, 0, 5, 21, 0, 0, 0].getD 5 0 * 2^16
          + [1, 1, 0, 0, 0, 0, 0, 5, 21, 0, 0, 0].getD 6 0 * 2^8
          + [1, 1, 0, 0, 0, 0, 0, 5, 21, 0, 0, 0].getD 7 0 :=
  ⟨((sid_decode_exact_layout [1, 1, 0, 0, 0, 0, 0, 5, 21, 0, 0, 0]).1.mpr
      (by decide)),
    ((sid_decode_exact_layout [1, 1, 0, 0, 0, 0, 0, 5, 21, 0, 0, 0]).2
      (Sid.mk 1 5 [21]) (by decide)).1⟩

/-- Claim C2: every SID successfully decoded from bytes renders to its
canonical `S-1-…` text and parses back from that text to the same SID. -/
theorem sid_bytes_display_parse_roundtrip (b : List Nat) (hb : AllBytes b)
    (sid : Sid) (h : Sid.tryFromBytes b = some sid) :
    Sid.fromChars (Sid.toChars sid) = some sid := by
  obtain ⟨hauth, hsubs⟩ := sid_tryFromBytes_bounds hb h
  exact fromChars_toChars (sid_tryFromBytes_fields h).1 hauth hsubs

theorem sid_bytes_display_parse_roundtrip_witness :
    Sid.fromChars (Sid.toChars (Sid.mk 1 5 [21])) = some (Sid.mk 1 5 [21]) :=
  sid_bytes_display_parse_roundtrip [1, 1, 0, 0, 0, 0, 0, 5, 21, 0, 0, 0]
    (by decide) (Sid.mk 1 5 [21]) (by decide)

theorem fromChars_version {s : List Char} {sid : Sid}
    (h : Sid.fromChars s = some sid) : sid.version = 1 := by
  unfold Sid.fromChars at h
  split_ifs at h
  split at h
  · cases h
  · split_ifs at h
    split at h
    · cases h
    · split at h
      · cases h
      · split_ifs at h
        split at h
        · cases h
        · cases h
          rfl

theorem toChars_take_four {sid : Sid} (hv : sid.version = 1) :
    (Sid.toChars sid).take 4 = ['S', '-', '1', '-'] := by
  unfold Sid.toChars
  rw [hv]
  rfl

/-- Claim C9: both public `Sid` constructors — decoding from bytes and
parsing from text — only ever produce SIDs whose version is 1, so the
canonical rendering always begins with `S-1-`. -/
theorem sid_constructors_version_one :
    (∀ b sid, Sid.tryFromBytes b = some sid →
      sid.version = 1 ∧ (Sid.toChars sid).take 4 = ['S', '-', '1', '-'])
    ∧ (∀ s sid, Sid.fromChars s = some sid →
      sid.version = 1 ∧ (Sid.toChars sid).take 4 = ['S', '-', '1', '-']) := by
  constructor
  · intro b sid h
    have hv := (sid_tryFromBytes_fields h).1
    exact ⟨hv, toChars_take_four hv⟩
  · intro s sid h
    have hv := fromChars_version h
    exact ⟨hv, toChars_take_four hv⟩

/-- Claim C6: the two concrete OID-prefix vectors: `[0x2A, 0x03, 0x04]`
decodes to fixed arcs `[1, 2, 3, 4]` with the default range `[0, 16384)`,
and `[0x2A, 0x03, 0x04, 0x82]` to fixed arcs `[1, 2, 3, 4]` with the
padded range `[32768, 49152)` of the unterminated trailing arc. -/
theorem oid_prefix_concrete_vectors :
    OidPrefix.fromBerBytes [0x2A, 0x03, 0x04]
        = { fixed_arcs := [1, 2, 3, 4], range_start := 0, range_end := 16384 }
    ∧ OidPrefix.fromBerBytes [0x2A, 0x03, 0x04, 0x82]
        = { fixed_arcs := [1, 2, 3, 4], range_start := 32768, range_end := 49152 } :=
  ⟨by decide, by decide⟩

theorem replCursorsLoop_length {bytes : List Nat} :
    ∀ count i l, ReplUpToDateVector2.cursorsLoop bytes count i = some l →
      l.length = count := by
  intro count
  induction count with
  | zero =>
    intro i l h
    cases h
    rfl
  | succ n ih =>
    intro i l h
    rw [ReplUpToDateVector2.cursorsLoop] at h
    rcases hc : Repl2Cursor.tryFromBytes ((bytes.drop (16 + i * 32)).take 32)
        with _ | cursor
    · rw [hc] at h
      cases h
    · rw [hc] at h
      obtain ⟨t, ht, rfl⟩ := Option.map_eq_some'.mp h
      simp [ih (i+1) t ht]

theorem prefixMapEntriesLoop_le {bytes : List Nat} :
    ∀ count i es n, i ≤ bytes.length →
      PrefixMap.entriesLoop bytes count i = some (es, n) → n ≤ bytes.length := by
  intro count
  induction count with
  | zero =>
    intro i es n hi h
    cases h
    exact hi
  | succ c ih =>
    intro i es n hi h
    rw [PrefixMap.entriesLoop] at h
    dsimp only at h
    split_ifs at h with h1 h2
    obtain ⟨⟨es2, n2⟩, ht, heq⟩ := Option.map_eq_some'.mp h
    cases heq
    exact ih (i + 4 + leU16 bytes (i+2)) es2 n2 (by omega) ht

/-- Claim C3, counterexample: a 9-byte `prefixMap` value with a zero entry
count and a matching declared byte count decodes successfully, yet the
decoder has only consumed the 8-byte header: the trailing byte is
silently ignored. -/
theorem prefix_map_trailing_bytes_counterexample :
    PrefixMap.tryFromBytes [0, 0, 0, 0, 9, 0, 0, 0, 0xAA] = some ⟨[]⟩
    ∧ PrefixMap.decodeWithConsumed [0, 0, 0, 0, 9, 0, 0, 0, 0xAA] = some ([], 8)
    ∧ ([0, 0, 0, 0, 9, 0, 0, 0, 0xAA] : List Nat).length = 9 :=
  ⟨by decide, by decide, by decide⟩

/-- Claim C3, amended: `ReplUpToDateVector2` does satisfy the exact-length
invariant — a successful decode forces the input length to be exactly
`16 + 32·(cursor count)`.  `PrefixMap` only forces its declared
total-byte-count header to equal the input length; the bytes between the
last decoded prefix entry and the end of the buffer are silently
ignored (the consumed offset is merely bounded by the length). -/
theorem record_family_length_invariant_amended :
    (∀ b v, ReplUpToDateVector2.tryFromBytes b = some v →
      b.length = 16 + 32 * v.cursors.length)
    ∧ (∀ b m n, PrefixMap.decodeWithConsumed b = some (m, n) →
      leU32 b 4 = b.length ∧ n ≤ b.length) := by
  constructor
  · intro b v h
    unfold ReplUpToDateVector2.tryFromBytes at h
    dsimp only at h
    split_ifs at h with h1 h2 h3
    obtain ⟨cursors, hcl, rfl⟩ := Option.map_eq_some'.mp h
    have hlen := replCursorsLoop_length (leU32 b 8) 0 cursors hcl
    simp only [hlen]
    omega
  · intro b m n h
    unfold PrefixMap.decodeWithConsumed at h
    dsimp only at h
    split_ifs at h with h1 h2
    exact ⟨by omega, prefixMapEntriesLoop_le (leU32 b 0) 8 m n (by omega) h⟩

theorem record_family_length_invariant_amended_witness :
    ([2, 0, 0, 0, 0, 0, 0, 0, 0, 0, 0, 0, 0, 0, 0, 0] : List Nat).length
        = 16 + 32 * (ReplUpToDateVector2.mk 2 0 0 []).cursors.length
    ∧ (leU32 [0, 0, 0, 0, 9, 0, 0, 0, 0xAA] 4
        = ([0, 0, 0, 0, 9, 0, 0, 0, 0xAA] : List Nat).length
      ∧ 8 ≤ ([0, 0, 0, 0, 9, 0, 0, 0, 0xAA] : List Nat).length) :=
  ⟨record_family_length_invariant_amended.1
      [2, 0, 0, 0, 0, 0, 0, 0, 0, 0, 0, 0, 0, 0, 0, 0]
      (ReplUpToDateVector2.mk 2 0 0 []) (by decide),
    record_family_length_invariant_amended.2
      [0, 0, 0, 0, 9, 0, 0, 0, 0xAA] [] 8 (by decide)⟩

/-- Claim C1: contrary to the spec's totality property, two decoders abort
on malformed input.  A 28-byte security descriptor whose SACL offset
points at an ACL header declaring a 100-byte size slices past the end of
the buffer (`Acl::get_length` never checks the declared size against the
remaining bytes), and `nul_terminated_utf16le_string` on the odd-length
slice `[0x41]` reaches a one-byte chunk whose
`try_into().unwrap()` to `[u8; 2]` fails.  In the embedding the outer
`none` is exactly that panic. -/
theorem decoder_panic_failing_inputs :
    SecurityDescriptor.tryFromBytes
        [1, 0, 0x00, 0x80, 0, 0, 0, 0, 0, 0, 0, 0, 20, 0, 0, 0, 0, 0, 0, 0,
          2, 0, 100, 0, 0, 0, 0, 0] = none
    ∧ nulTerminatedUtf16leString [0x41] = none :=
  ⟨by decide, by decide⟩

theorem aceTypeCode_eq_none {d : AceData} (h : aceTypeHasNoCode d) :
    Acl.aceTypeCode d = none := by
  cases d <;> first | rfl | exact h.elim

theorem aceMaskChars_eq_none {d : AceData} (h : aceMaskUnrecognized d) :
    Acl.aceMaskChars d = none := by
  unfold Acl.aceMaskChars
  rcases h with ⟨m, hm, hbad⟩ | ⟨m, s, rfl, hbad⟩
  · rw [hm]
    dsimp only
    rw [if_pos hbad]
  · dsimp only [AceData.accessMask]
    rw [if_pos hbad]

theorem aceMaskChars_some_not_unrecognized {d : AceData} {x : List Char}
    (h : Acl.aceMaskChars d = some x) : ¬ aceMaskUnrecognized d := by
  intro hbad
  rw [aceMaskChars_eq_none hbad] at h
  cases h

theorem aceToString_none_of_bad {ace : Ace}
    (h : ace.application_data ≠ []
      ∨ ace.flags &&& Acl.aceFlagsKnown ≠ ace.flags
      ∨ aceMaskUnrecognized ace.data
      ∨ aceTypeHasNoCode ace.data) :
    Acl.aceToString ace = none := by
  unfold Acl.aceToString
  by_cases happ : ace.application_data ≠ []
  · rw [if_pos happ]
  · rw [if_neg happ]
    rcases hcode : Acl.aceTypeCode ace.data with _ | code
    · rfl
    · dsimp only
      have htype : ¬ aceTypeHasNoCode ace.data := by
        intro hbad
        rw [aceTypeCode_eq_none hbad] at hcode
        cases hcode
      by_cases hflags : ace.flags &&& Acl.aceFlagsKnown ≠ ace.flags
      · rw [if_pos hflags]
      · rw [if_neg hflags]
        have hmask : aceMaskUnrecognized ace.data := by
          rcases h with h | h | h | h
          · exact absurd h happ
          · exact absurd h hflags
          · exact h
          · exact absurd h htype
        rw [aceMaskChars_eq_none hmask]

theorem aceToString_some_conditions {ace : Ace} {s : List Char}
    (h : Acl.aceToString ace = some s) :
    ace.application_data = []
    ∧ ace.flags &&& Acl.aceFlagsKnown = ace.flags
    ∧ ¬ aceMaskUnrecognized ace.data := by
  unfold Acl.aceToString at h
  by_cases h1 : ace.application_data ≠ []
  · rw [if_pos h1] at h
    cases h
  · rw [if_neg h1] at h
    rcases hcode : Acl.aceTypeCode ace.data with _ | code
    · rw [hcode] at h
      cases h
    · rw [hcode] at h
      dsimp only at h
      by_cases h2 : ace.flags &&& Acl.aceFlagsKnown ≠ ace.flags
      · rw [if_pos h2] at h
        cases h
      · rw [if_neg h2] at h
        rcases hmask : Acl.aceMaskChars ace.data with _ | maskStr
        · rw [hmask] at h
          cases h
        · exact ⟨not_not.mp h1, not_not.mp h2,
            aceMaskChars_some_not_unrecognized hmask⟩

theorem entriesToString_none_of_mem {entries : List Ace} {ace : Ace}
    (hm : ace ∈ entries) (ha : Acl.aceToString ace = none) :
    Acl.entriesToString entries = none := by
  induction entries with
  | nil => cases hm
  | cons a t ih =>
    rw [Acl.entriesToString]
    rcases List.mem_cons.mp hm with rfl | hmt
    · rw [ha]
    · rcases h2 : Acl.aceToString a with _ | sa
      · rfl
      · rw [ih hmt]
        rfl

theorem entriesToString_some_forall {entries : List Ace} {s : List Char}
    (h : Acl.entriesToString entries = some s) :
    ∀ ace ∈ entries, ∃ sa, Acl.aceToString ace = some sa := by
  induction entries generalizing s with
  | nil =>
    intro ace hm
    cases hm
  | cons a t ih =>
    intro ace hm
    rw [Acl.entriesToString] at h
    rcases ha : Acl.aceToString a with _ | sa
    · rw [ha] at h
      cases h
    · rw [ha] at h
      obtain ⟨st, hst, rfl⟩ := Option.map_eq_some'.mp h
      rcases List.mem_cons.mp hm with rfl | hmt
      · exact ⟨sa, ha⟩
      · exact ih hst ace hmt

theorem mem_aces {sd : SecurityDescriptor} {ace : Ace} :
    ace ∈ SecurityDescriptor.aces sd ↔
      (∃ acl, sd.sacl = some acl ∧ ace ∈ acl.entries)
      ∨ (∃ acl, sd.dacl = some acl ∧ ace ∈ acl.entries) := by
  unfold SecurityDescriptor.aces
  rcases hs : sd.sacl with _ | sacl <;> rcases hd : sd.dacl with _ | dacl <;>
    simp

theorem aclPart_none_of_entry {control : Nat} {tag : Char} {p ar ai : Nat}
    {acl : Acl} {ace : Ace} (hin : ace ∈ acl.entries)
    (ha : Acl.aceToString ace = none) :
    SecurityDescriptor.aclPart control tag p ar ai (some acl) = none := by
  unfold SecurityDescriptor.aclPart Acl.tryToString
  dsimp only
  rw [entriesToString_none_of_mem hin ha]
  rfl

/-- Claim C4: `SecurityDescriptor::try_to_string` returns absent whenever
the control flags contain a defaulted or resource-manager-control-valid
bit, or any contained ACE has non-empty application data, an
unrecognised flag or mask bit, or a type with no SDDL code; conversely a
successful rendering means every contained ACE has empty application
data and only recognised flag and mask bits. -/
theorem sddl_render_bailout (sd : SecurityDescriptor) :
    ((sd.control &&& SecurityDescriptor.sddlRejectedControl ≠ 0
        ∨ ∃ ace ∈ SecurityDescriptor.aces sd,
            ace.application_data ≠ []
            ∨ ace.flags &&& Acl.aceFlagsKnown ≠ ace.flags
            ∨ aceMaskUnrecognized ace.data
            ∨ aceTypeHasNoCode ace.data) →
      SecurityDescriptor.tryToString sd = none)
    ∧ (∀ s, SecurityDescriptor.tryToString sd = some s →
        ∀ ace ∈ SecurityDescriptor.aces sd,
          ace.application_data = []
          ∧ ace.flags &&& Acl.aceFlagsKnown = ace.flags
          ∧ ¬ aceMaskUnrecognized ace.data) := by
  constructor
  · intro hbad
    unfold SecurityDescriptor.tryToString
    by_cases hctl : sd.control &&& SecurityDescriptor.sddlRejectedControl ≠ 0
    · rw [if_pos hctl]
    · rw [if_neg hctl]
      rcases hbad with hctl2 | ⟨ace, hmem, hconds⟩
      · exact absurd hctl2 hctl
      · have hace : Acl.aceToString ace = none := aceToString_none_of_bad hconds
        rcases mem_aces.mp hmem with ⟨acl, hs, hin⟩ | ⟨acl, hd, hin⟩
        · rcases hdp : SecurityDescriptor.aclPart sd.control 'D' 0x1000 0x0100 0x0400 sd.dacl
              with _ | dstr
          · rfl
          · dsimp only
            rw [hs, aclPart_none_of_entry hin hace]
        · rw [hd, aclPart_none_of_entry hin hace]
  · intro s h ace hmem
    unfold SecurityDescriptor.tryToString at h
    by_cases hctl : sd.control &&& SecurityDescriptor.sddlRejectedControl ≠ 0
    · rw [if_pos hctl] at h
      cases h
    · rw [if_neg hctl] at h
      rcases hdp : SecurityDescriptor.aclPart sd.control 'D' 0x1000 0x0100 0x0400 sd.dacl
          with _ | dstr
      · rw [hdp] at h
        cases h
      · rw [hdp] at h
        dsimp only at h
        rcases hsp : SecurityDescriptor.aclPart sd.control 'S' 0x2000 0x0200 0x0800 sd.sacl
            with _ | sstr
        · rw [hsp] at h
          cases h
        · rcases mem_aces.mp hmem with ⟨acl, hside, hin⟩ | ⟨acl, hside, hin⟩
          · rw [hside] at hsp
            unfold SecurityDescriptor.aclPart at hsp
            obtain ⟨astr, hastr, _⟩ := Option.map_eq_some'.mp hsp
            obtain ⟨sa, hsa⟩ :=
              entriesToString_some_forall (s := astr) hastr ace hin
            exact aceToString_some_conditions hsa
          · rw [hside] at hdp
            unfold SecurityDescriptor.aclPart at hdp
            obtain ⟨astr, hastr, _⟩ := Option.map_eq_some'.mp hdp
            obtain ⟨sa, hsa⟩ :=
              entriesToString_some_forall (s := astr) hastr ace hin
            exact aceToString_some_conditions hsa

theorem sddl_render_bailout_witness :
    SecurityDescriptor.tryToString
        (SecurityDescriptor.mk 1 0 0x8001 none none none none) = none
    ∧ SecurityDescriptor.tryToString
        (SecurityDescriptor.mk 1 0 0x8000 none none none
          (some (Acl.mk 2 0 0
            [Ace.mk 0 (AceData.accessAllowed 1 (Sid.mk 1 5 [18])) [7]]))) = none
    ∧ ((Ace.mk 0 (AceData.accessAllowed 1 (Sid.mk 1 5 [18])) []).application_data = []
        ∧ (Ace.mk 0 (AceData.accessAllowed 1 (Sid.mk 1 5 [18])) []).flags
            &&& Acl.aceFlagsKnown
          = (Ace.mk 0 (AceData.accessAllowed 1 (Sid.mk 1 5 [18])) []).flags
        ∧ ¬ aceMaskUnrecognized
            (Ace.mk 0 (AceData.accessAllowed 1 (Sid.mk 1 5 [18])) []).data) :=
  ⟨(sddl_render_bailout (SecurityDescriptor.mk 1 0 0x8001 none none none none)).1
      (Or.inl (by decide)),
    (sddl_render_bailout (SecurityDescriptor.mk 1 0 0x8000 none none none
        (some (Acl.mk 2 0 0
          [Ace.mk 0 (AceData.accessAllowed 1 (Sid.mk 1 5 [18])) [7]])))).1
      (Or.inr ⟨Ace.mk 0 (AceData.accessAllowed 1 (Sid.mk 1 5 [18])) [7],
        by decide, Or.inl (by decide)⟩),
    (sddl_render_bailout (SecurityDescriptor.mk 1 0 0x8000 none none none
        (some (Acl.mk 2 0 0
          [Ace.mk 0 (AceData.accessAllowed 1 (Sid.mk 1 5 [18])) []])))).2
      ("D:(A;;CC;;;SY)".toList) (by decide)
      (Ace.mk 0 (AceData.accessAllowed 1 (Sid.mk 1 5 [18])) []) (by decide)⟩

theorem negIntervalNumbers (p : Int) (hp : 0 ≤ p) :
    ((p.tdiv 10 * 1000 + p.tmod 10 * 100).tdiv 1000000000).tmod 60
        = p / 10000000 % 60
    ∧ (((p.tdiv 10 * 1000 + p.tmod 10 * 100).tdiv 1000000000).tdiv 60).tmod 60
        = p / 10000000 % 3600 / 60
    ∧ ((((p.tdiv 10 * 1000 + p.tmod 10 * 100).tdiv 1000000000).tdiv 60).tdiv 60).tmod 24
        = p / 10000000 % 86400 / 3600
    ∧ ((((p.tdiv 10 * 1000 + p.tmod 10 * 100).tdiv 1000000000).tdiv 60).tdiv 60).tdiv 24
        = p / 10000000 / 86400 := by
  rw [Int.tdiv_eq_ediv hp (by norm_num), Int.tmod_eq_emod hp (by norm_num)]
  have hd : (0:Int) ≤ p / 10 * 1000 + p % 10 * 100 := by omega
  rw [Int.tdiv_eq_ediv hd (by norm_num)]
  have hr0 : (0:Int) ≤ (p / 10 * 1000 + p % 10 * 100) / 1000000000 := by omega
  have hreq : (p / 10 * 1000 + p % 10 * 100) / 1000000000 = p / 10000000 := by
    omega
  rw [hreq]
  have ht0 : (0:Int) ≤ p / 10000000 := by omega
  rw [Int.tdiv_eq_ediv ht0 (by norm_num), Int.tmod_eq_emod ht0 (by norm_num)]
  have ht60 : (0:Int) ≤ p / 10000000 / 60 := by omega
  rw [Int.tdiv_eq_ediv ht60 (by norm_num), Int.tmod_eq_emod ht60 (by norm_num)]
  have ht3600 : (0:Int) ≤ p / 10000000 / 60 / 60 := by omega
  rw [Int.tdiv_eq_ediv ht3600 (by norm_num), Int.tmod_eq_emod ht3600 (by norm_num)]
  refine ⟨rfl, by omega, by omega, by omega⟩

/-- Claim C8: a negative-interval value equal to `i64::MIN` renders with the
literal `(never)` annotation; any other negative value `-n` renders its
`n / 10_000_000` seconds decomposed into days, hours, minutes and
seconds; a value that does not parse as an integer falls back to the
literal text display. -/
theorem negative_interval_rendering (key value : List Char) :
    (∀ parsed : Int, parseI64 value = some parsed → parsed < 0 →
      outputNegativeIntervalValue key value =
        if parsed = -(2^63) then
          [key ++ [':', ' '] ++ value ++ (" (never)".toList)]
        else
          [key ++ [':', ' '] ++ value ++ [' ', '(']
            ++ intChars (-parsed / 10000000 / 86400) ++ ['d', ' ']
            ++ intChars (-parsed / 10000000 % 86400 / 3600) ++ ['h', ' ']
            ++ intChars (-parsed / 10000000 % 3600 / 60) ++ ['m', 'i', 'n', ' ']
            ++ intChars (-parsed / 10000000 % 60) ++ ['s', ')']])
    ∧ (parseI64 value = none →
      outputNegativeIntervalValue key value = outputStringValueAsString key value) := by
  constructor
  · intro parsed hp hneg
    unfold outputNegativeIntervalValue
    rw [hp]
    dsimp only
    by_cases hmin : parsed = -(2^63)
    · rw [if_pos hmin, if_pos hmin]
    · rw [if_neg hmin, if_neg hmin]
      have hp0 : (0:Int) ≤ -parsed := by omega
      obtain ⟨e1, e2, e3, e4⟩ := negIntervalNumbers (-parsed) hp0
      unfold timeDeltaMicroseconds timeDeltaNanoseconds timeDeltaNumSeconds
      rw [e1, e2, e3, e4]
  · intro hp
    unfold outputNegativeIntervalValue
    rw [hp]

theorem negative_interval_rendering_witness :
    outputNegativeIntervalValue ("maxPwdAge".toList) ("-9223372036854775808".toList)
        = ["maxPwdAge: -9223372036854775808 (never)".toList]
    ∧ outputNegativeIntervalValue ("maxPwdAge".toList) ("hello".toList)
        = outputStringValueAsString ("maxPwdAge".toList) ("hello".toList) := by
  constructor
  · have h := (negative_interval_rendering ("maxPwdAge".toList)
        ("-9223372036854775808".toList)).1 (-(2^63)) (by decide) (by decide)
    rw [if_pos rfl] at h
    exact h.trans (by decide)
  · exact (negative_interval_rendering ("maxPwdAge".toList) ("hello".toList)).2
      (by decide)

/-- Claim C7: for a string-typed attribute value, the text decoder table is
consulted first; the binary decoder table is re-consulted on the
string's bytes exactly when every text decoder failed; and the
verbatim-or-Base64 string rendering is produced exactly when both tables
fail — so the binary retry always precedes the safe-string check. -/
theorem string_value_fallback_order {α : Type}
    (fS : List Char → List Char → List LdapValue → Option α)
    (fB : List Char → List Nat → Option α)
    (key : List Char) (oc : List LdapValue) (sv : List Char) :
    ((outputValue fS fB key oc (.string sv)).1.head? = some .text)
    ∧ ((outputValue fS fB key oc (.string sv)).1 = [.text, .binary]
        ↔ fS key sv oc = none)
    ∧ (∀ a, fS key sv oc = none → fB key (utf8Encode sv) = some a →
        (outputValue fS fB key oc (.string sv)).2 = .handled a)
    ∧ ((outputValue fS fB key oc (.string sv)).2
          = .plain (outputStringValueAsString key sv)
        ↔ fS key sv oc = none ∧ fB key (utf8Encode sv) = none) := by
  rcases hS : fS key sv oc with _ | a0
  · rcases hB : fB key (utf8Encode sv) with _ | b0
    · refine ⟨?_, ?_, ?_, ?_⟩ <;> simp [outputValue, hS, hB]
    · refine ⟨?_, ?_, ?_, ?_⟩ <;> simp [outputValue, hS, hB]
  · refine ⟨?_, ?_, ?_, ?_⟩ <;> simp [outputValue, hS]

theorem string_value_fallback_order_witness :
    ((outputValue (fun _ _ _ => (none : Option Nat)) (fun _ _ => some 7)
        [] [] (.string [])).2 = .handled 7)
    ∧ ((outputValue (fun _ _ _ => (none : Option Nat)) (fun _ _ => some 7)
        [] [] (.string [])).1.head? = some .text) :=
  ⟨(string_value_fallback_order (fun _ _ _ => (none : Option Nat))
      (fun _ _ => some 7) [] [] []).2.2.1 7 rfl rfl,
    (string_value_fallback_order (fun _ _ _ => (none : Option Nat))
      (fun _ _ => some 7) [] [] []).1⟩

/-- Claim C10: the empty string is a safe LDAP string (the unsafe
first-character rule only applies when a first character exists), so an
empty text value that matches no decoder is printed verbatim as
`name: ` rather than Base64-encoded. -/
theorem empty_string_safe_verbatim :
    (isSafeLdapString [] = true)
    ∧ (∀ key : List Char, outputStringValueAsString key [] = [key ++ [':', ' ']])
    ∧ (∀ (α : Type) (fS : List Char → List Char → List LdapValue → Option α)
        (fB : List Char → List Nat → Option α) (key : List Char)
        (oc : List LdapValue),
        fS key [] oc = none → fB key (utf8Encode []) = none →
        (outputValue fS fB key oc (.string [])).2
          = .plain [key ++ [':', ' ']]) := by
  refine ⟨rfl, ?_, ?_⟩
  · intro key
    simp [outputStringValueAsString, isSafeLdapString]
  · intro α fS fB key oc hS hB
    unfold outputValue
    dsimp only
    rw [hS, hB]
    simp [outputStringValueAsString, isSafeLdapString]

theorem empty_string_safe_verbatim_witness :
    (outputValue (fun _ _ _ => (none : Option Nat)) (fun _ _ => none)
        ("name".toList) [] (.string [])).2
      = .plain [("name".toList) ++ [':', ' ']] :=
  empty_string_safe_verbatim.2.2 Nat (fun _ _ _ => none) (fun _ _ => none)
    ("name".toList) [] rfl rfl

theorem sid_constructors_version_one_witness :
    ((Sid.mk 1 5 [21]).version = 1
      ∧ (Sid.toChars (Sid.mk 1 5 [21])).take 4 = ['S', '-', '1', '-'])
    ∧ ((Sid.mk 1 5 [18]).version = 1
      ∧ (Sid.toChars (Sid.mk 1 5 [18])).take 4 = ['S', '-', '1', '-']) :=
  ⟨sid_constructors_version_one.1 [1, 1, 0, 0, 0, 0, 0, 5, 21, 0, 0, 0]
      (Sid.mk 1 5 [21]) (by decide),
    sid_constructors_version_one.2 ("S-1-5-18".toList) (Sid.mk 1 5 [18])
      (by decide)⟩

end AdLdapSearch
